import Mathlib

/-!
Verification of the schema-normalization + question-answering pipeline of the
Police_Dept_AI_Dashbaord repository.  The Python sources are shallowly embedded:
strings are `List Char` / `String`, dataframes are ordered association lists of
named columns, the SQLite/Redis backends are explicit state or oracle functions.
Python's `str.lower`/`str.upper`/`\b`/`str.strip` are modelled on their ASCII
behaviour (every concrete string appearing in the claims is ASCII).
-/

/-- Python `str.startswith` on character lists. -/
def startsWithL : List Char → List Char → Bool
  | [], _ => true
  | _ :: _, [] => false
  | p :: ps, c :: cs => p == c && startsWithL ps cs

/-- Python `needle in haystack` (substring containment) on character lists. -/
def occursIn (p : List Char) : List Char → Bool
  | [] => startsWithL p []
  | c :: rest => startsWithL p (c :: rest) || occursIn p rest

/-- Python `str.endswith` on character lists. -/
def endsWithL (p s : List Char) : Bool :=
  startsWithL p.reverse s.reverse

theorem startsWithL_length_le {p s : List Char} (h : startsWithL p s = true) :
    p.length ≤ s.length := by
  induction p generalizing s with
  | nil => exact Nat.zero_le _
  | cons a as ih =>
    cases s with
    | nil => simp [startsWithL] at h
    | cons c cs =>
      simp only [startsWithL, Bool.and_eq_true] at h
      simpa [List.length_cons] using Nat.succ_le_succ (ih h.2)

/-- One scan step of Python `str.replace(pat, rep)`: when `skip` is positive the
character belongs to an already-matched occurrence of `pat` and is discarded. -/
def replaceAux (pat rep : List Char) : Nat → List Char → List Char
  | _, [] => []
  | skip, c :: rest =>
    match skip with
    | skip' + 1 => replaceAux pat rep skip' rest
    | 0 =>
      if startsWithL pat (c :: rest) && !pat.isEmpty then
        rep ++ replaceAux pat rep (pat.length - 1) rest
      else
        c :: replaceAux pat rep 0 rest

/-- Python `s.replace(pat, rep)` (left-to-right, non-overlapping) on lists. -/
def replaceL (pat rep s : List Char) : List Char :=
  replaceAux pat rep 0 s

theorem mem_replaceAux {pat rep : List Char} {a : Char} :
    ∀ {skip s}, a ∈ replaceAux pat rep skip s → a ∈ rep ∨ a ∈ s := by
  intro skip s
  induction s generalizing skip with
  | nil => intro h; simp [replaceAux] at h
  | cons c rest ih =>
    intro h
    match skip with
    | skip + 1 =>
      rcases ih h with h' | h'
      · exact Or.inl h'
      · exact Or.inr (List.mem_cons_of_mem _ h')
    | 0 =>
      simp only [replaceAux] at h
      split at h
      · rcases List.mem_append.1 h with h' | h'
        · exact Or.inl h'
        · rcases ih h' with h'' | h''
          · exact Or.inl h''
          · exact Or.inr (List.mem_cons_of_mem _ h'')
      · rcases List.mem_cons.1 h with h' | h'
        · exact Or.inr (h' ▸ List.mem_cons_self _ _)
        · rcases ih h' with h'' | h''
          · exact Or.inl h''
          · exact Or.inr (List.mem_cons_of_mem _ h'')

theorem length_pos_of_not_isEmpty {pat : List Char} (h : pat.isEmpty = false) :
    1 ≤ pat.length := by
  cases pat with
  | nil => simp [List.isEmpty] at h
  | cons _ _ => simp

theorem replaceAux_length_le {pat rep : List Char} (hrep : rep.length ≤ pat.length) :
    ∀ {skip s}, (replaceAux pat rep skip s).length ≤ s.length - skip := by
  intro skip s
  induction s generalizing skip with
  | nil => simp [replaceAux]
  | cons c rest ih =>
    match skip with
    | skip + 1 =>
      simpa [replaceAux] using le_trans (@ih skip) (by omega)
    | 0 =>
      simp only [replaceAux]
      split
      · rename_i hcond
        simp only [Bool.and_eq_true, Bool.not_eq_true'] at hcond
        have hlen : pat.length ≤ (c :: rest).length := startsWithL_length_le hcond.1
        have hrec := @ih (pat.length - 1)
        have hpos : 1 ≤ pat.length := length_pos_of_not_isEmpty hcond.2
        simp only [List.length_append, List.length_cons] at *
        omega
      · simpa using Nat.succ_le_succ (@ih 0)

theorem replaceL_length_lt {pat rep : List Char} (hrep : rep.length < pat.length) :
    ∀ {s}, occursIn pat s = true → (replaceL pat rep s).length < s.length := by
  have hpat : pat ≠ [] := by
    intro h; subst h; simp at hrep
  intro s
  induction s with
  | nil =>
    intro h
    cases pat with
    | nil => exact absurd rfl hpat
    | cons _ _ => simp [occursIn, startsWithL] at h
  | cons c rest ih =>
    intro h
    simp only [replaceL, replaceAux]
    split
    · rename_i hcond
      simp only [Bool.and_eq_true] at hcond
      have hlen : pat.length ≤ (c :: rest).length := startsWithL_length_le hcond.1
      have hrec := @replaceAux_length_le pat rep (le_of_lt hrep)
        (pat.length - 1) rest
      have hpos : 1 ≤ pat.length := by
        cases pat with
        | nil => exact absurd rfl hpat
        | cons _ _ => simp
      simp only [List.length_append, List.length_cons] at *
      omega
    · rename_i hcond
      have hne : pat.isEmpty = false := by
        cases pat with
        | nil => exact absurd rfl hpat
        | cons _ _ => simp [List.isEmpty]
      have hstart : startsWithL pat (c :: rest) = false := by
        cases hsw : startsWithL pat (c :: rest) with
        | false => rfl
        | true => exact absurd (by simp [hsw, hne]) hcond
      have hocc : occursIn pat rest = true := by
        simpa [occursIn, hstart] using h
      simpa using Nat.succ_lt_succ (ih hocc)

/-- Single-character pattern replacement removes every occurrence of that
character, provided the replacement text does not reintroduce it. -/
theorem notMem_replace_single {c : Char} {rep : List Char} (hc : c ∉ rep) :
    ∀ s, c ∉ replaceL [c] rep s := by
  intro s
  induction s with
  | nil => simp [replaceL, replaceAux]
  | cons d rest ih =>
    simp only [replaceL, replaceAux] at *
    split
    · rename_i hcond
      simp only [Bool.and_eq_true] at hcond
      intro hmem
      rcases List.mem_append.1 hmem with h' | h'
      · exact hc h'
      · exact ih h'
    · rename_i hcond
      have hdc : ¬(c == d) = true := by
        intro hcd
        exact hcond (by simp [startsWithL, hcd, List.isEmpty])
      intro hmem
      rcases List.mem_cons.1 hmem with h' | h'
      · exact hdc (by simp [h'])
      · exact ih h'

/-- Python `s.strip(strippedChar)`: drop the character from both ends. -/
def trimChar (c : Char) (s : List Char) : List Char :=
  ((s.dropWhile (· == c)).reverse.dropWhile (· == c)).reverse

theorem mem_trimChar {c a : Char} {s : List Char} (h : a ∈ trimChar c s) : a ∈ s := by
  simp only [trimChar, List.mem_reverse] at h
  have h1 := (List.dropWhile_sublist (l := (s.dropWhile (· == c)).reverse)
    (p := (· == c))).mem h
  rw [List.mem_reverse] at h1
  exact (List.dropWhile_sublist (l := s) (p := (· == c))).mem h1

/-- Python loop `while '__' in s: s = s.replace('__', '_')` from
`DatabaseManager._get_table_name` (src/database.py lines 57-58), run with a fuel
bound.  Each productive iteration strictly shrinks the string, so fuel
`s.length` makes this exactly the Python loop (`dedupUnderscores` below). -/
def dedupLoop : Nat → List Char → List Char
  | 0, s => s
  | n + 1, s =>
    if occursIn ['_', '_'] s then dedupLoop n (replaceL ['_', '_'] ['_'] s) else s

def dedupUnderscores (s : List Char) : List Char :=
  dedupLoop s.length s

theorem occursIn_dedupLoop :
    ∀ (n : Nat) (s : List Char), s.length ≤ n →
      occursIn ['_', '_'] (dedupLoop n s) = false := by
  intro n
  induction n with
  | zero =>
    intro s hs
    have hnil : s = [] := List.length_eq_zero.mp (Nat.le_zero.mp hs)
    subst hnil
    decide
  | succ n ih =>
    intro s hs
    simp only [dedupLoop]
    split
    · rename_i hocc
      have hlt := @replaceL_length_lt ['_', '_'] ['_'] (by decide) s hocc
      exact ih _ (by omega)
    · rename_i hocc
      exact Bool.not_eq_true _ ▸ hocc

theorem occursIn_dedupUnderscores (s : List Char) :
    occursIn ['_', '_'] (dedupUnderscores s) = false :=
  occursIn_dedupLoop s.length s le_rfl

theorem mem_dedupLoop {a : Char} :
    ∀ {n s}, a ∈ dedupLoop n s → a ∈ s ∨ a = '_' := by
  intro n
  induction n with
  | zero => intro s h; exact Or.inl h
  | succ n ih =>
    intro s h
    simp only [dedupLoop] at h
    split at h
    · rcases ih h with h' | h'
      · rcases mem_replaceAux h' with h'' | h''
        · simp only [List.mem_singleton] at h''
          exact Or.inr h''
        · exact Or.inl h''
      · exact Or.inr h'
    · exact Or.inl h

/-- The cleaned department identifier computed by
`DatabaseManager._get_table_name` (src/database.py lines 43-59) before the
`police_data_` prefix is attached.  Python `str.lower` is modelled by the ASCII
`Char.toLower`. -/
def cleanDept (department : String) : List Char :=
  let s := department.data.map Char.toLower
  let s := replaceL " police department".data [] s
  let s := replaceL "police department".data [] s
  let s := replaceL "department".data [] s
  let s := replaceL " police".data [] s
  let s := replaceL "police".data [] s
  let s := replaceL [' '] ['_'] s
  let s := replaceL ['-'] ['_'] s
  let s := trimChar '_' s
  dedupUnderscores s

/-- `DatabaseManager._get_table_name` (src/database.py lines 43-59). -/
def get_table_name (department : String) : String :=
  String.mk ("police_data_".data ++ cleanDept department)

theorem get_table_name_seattle :
    get_table_name "Seattle Police Department" = "police_data_seattle" := by
  decide

theorem mem_dedupUnderscores {a : Char} {s : List Char}
    (h : a ∈ dedupUnderscores s) : a ∈ s ∨ a = '_' :=
  mem_dedupLoop h

theorem cleanDept_clean (department : String) :
    ' ' ∉ cleanDept department ∧ '-' ∉ cleanDept department ∧
      occursIn ['_', '_'] (cleanDept department) = false := by
  show ' ' ∉ dedupUnderscores _ ∧ '-' ∉ dedupUnderscores _ ∧ _
  refine ⟨?_, ?_, occursIn_dedupUnderscores _⟩
  · intro hmem
    rcases mem_dedupUnderscores hmem with h8 | h8
    · have h7 := mem_trimChar h8
      rcases mem_replaceAux h7 with h6 | h6
      · simp at h6
      · exact notMem_replace_single (by decide) _ h6
    · simp at h8
  · intro hmem
    rcases mem_dedupUnderscores hmem with h8 | h8
    · exact notMem_replace_single (by decide) _ (mem_trimChar h8)
    · simp at h8

/-- C8 counterexample: the claim says every non-alphanumeric character of the
department identifier is collapsed to an underscore, but
`DatabaseManager._get_table_name` only rewrites spaces and hyphens; the dot in
"St. Louis Police Department" survives into the table name, which therefore
contains a character that is neither alphanumeric nor an underscore. -/
theorem get_table_name_dot_survives :
    get_table_name "St. Louis Police Department" = "police_data_st._louis" ∧
      '.' ∈ cleanDept "St. Louis Police Department" ∧
      '.'.isAlphanum = false ∧ '.' ≠ '_' := by
  decide

/-- C8 (amended): the derived table name is `police_data_` followed by the
identifier lower-cased with the generic police/department words stripped, where
spaces and hyphens (only those two characters, not every non-alphanumeric) are
turned into underscores, duplicate underscores are collapsed and edge
underscores stripped; the suffix therefore contains no space, no hyphen and no
doubled underscore, but may retain other non-alphanumeric characters. -/
theorem get_table_name_shape (department : String) :
    get_table_name department = String.mk ("police_data_".data ++ cleanDept department) ∧
      ' ' ∉ cleanDept department ∧ '-' ∉ cleanDept department ∧
      occursIn ['_', '_'] (cleanDept department) = false :=
  ⟨rfl, cleanDept_clean department⟩

/-! ## Schema normalization (`RealDataFetcher._standardize_columns`, src/data_fetcher.py) -/

/-- A dataframe column: one optional value per row (`none` models pandas null). -/
abbrev Column := List (Option String)

/-- A pandas dataframe, modelled as its row count plus an ordered list of named
columns. -/
structure DataFrame where
  nrows : Nat
  cols : List (String × Column)

def keys (cols : List (String × Column)) : List String :=
  cols.map Prod.fst

def hasColumn (name : String) (cols : List (String × Column)) : Bool :=
  cols.any (fun p => p.1 == name)

def lookupColumn (name : String) : List (String × Column) → Option Column
  | [] => none
  | (k, v) :: rest => if k == name then some v else lookupColumn name rest

/-- Pandas `df.loc[:, ~df.columns.duplicated()]`: keep the first occurrence of
each column name, in order. -/
def dedupKeys : List (String × Column) → List (String × Column)
  | [] => []
  | (k, v) :: rest => (k, v) :: (dedupKeys rest).filter (fun p => !(p.1 == k))

/-- The key `col.lower().replace('_', '').replace(' ', '')` computed at
src/data_fetcher.py line 220. -/
def normalizeKey (col : String) : List Char :=
  replaceL [' '] [] (replaceL ['_'] [] (col.data.map Char.toLower))

def hasSub (needle : String) (cl : List Char) : Bool :=
  occursIn needle.data cl

/-- The if/elif predicate chain of `RealDataFetcher._standardize_columns`
(src/data_fetcher.py lines 219-260): `some canonical` when the column is
renamed, `none` when it keeps its source name.  Branches whose outer condition
matches but whose nested condition fails map nothing and stop the chain,
exactly as the Python nested `if` under an `elif` does. -/
def mapCol (col : String) : Option String :=
  let cl := normalizeKey col
  if hasSub "date" cl || hasSub "time" cl then
    if hasSub "stop" cl then some "stop_date"
    else if hasSub "datetime" cl then some "stop_date"
    else none
  else if hasSub "race" cl || hasSub "ethnicity" cl then
    if hasSub "subject" cl || hasSub "driver" cl then some "driver_race" else none
  else if hasSub "sex" cl || hasSub "gender" cl then
    if hasSub "subject" cl || hasSub "driver" cl then some "driver_gender" else none
  else if hasSub "age" cl then
    if hasSub "subject" cl || hasSub "driver" cl then some "driver_age" else none
  else if hasSub "search" cl && (hasSub "conducted" cl || hasSub "performed" cl) then
    some "search_conducted"
  else if hasSub "contraband" cl && hasSub "found" cl then
    some "contraband_found"
  else if hasSub "arrest" cl && (hasSub "made" cl || hasSub "performed" cl) then
    some "arrest_made"
  else if hasSub "citation" cl && hasSub "issued" cl then
    some "citation_issued"
  else if hasSub "warning" cl && hasSub "issued" cl then
    some "warning_issued"
  else if hasSub "outcome" cl || hasSub "disposition" cl then
    some "stop_outcome"
  else if hasSub "lat" cl && !hasSub "lon" cl && !hasSub "lng" cl then
    some "lat"
  else if hasSub "lon" cl || hasSub "lng" cl then
    some "longitude"
  else if hasSub "district" cl || hasSub "precinct" cl then
    some "district"
  else none

/-- `df.rename(columns=column_mapping)` (src/data_fetcher.py line 263). -/
def renameCols (cols : List (String × Column)) : List (String × Column) :=
  cols.map (fun p => ((mapCol p.1).getD p.1, p.2))

def requiredColumns : List String :=
  ["stop_date", "driver_race", "driver_gender"]

/-- One iteration of the required-column loop (src/data_fetcher.py lines
270-273): `df[col] = None` appends an all-null column when absent. -/
def addOne (n : Nat) (c : String) (cols : List (String × Column)) :
    List (String × Column) :=
  if hasColumn c cols then cols else cols ++ [(c, List.replicate n none)]

def addRequired (n : Nat) (cols : List (String × Column)) : List (String × Column) :=
  requiredColumns.foldl (fun acc c => addOne n c acc) cols

/-- The `lng`/`longitude` conversion (src/data_fetcher.py lines 276-278):
copy `lng` into a trailing `longitude` column and drop `lng`, but only when no
`longitude` column exists yet. -/
def lngFix (cols : List (String × Column)) : List (String × Column) :=
  if hasColumn "lng" cols && !hasColumn "longitude" cols then
    match lookupColumn "lng" cols with
    | some v => (cols.filter (fun p => !(p.1 == "lng"))) ++ [("longitude", v)]
    | none => cols
  else cols

/-- `RealDataFetcher._standardize_columns` (src/data_fetcher.py lines 214-280). -/
def standardize_columns (df : DataFrame) : DataFrame :=
  let renamed := renameCols df.cols
  let deduped := dedupKeys renamed
  let withReq := addRequired df.nrows deduped
  ⟨df.nrows, lngFix withReq⟩

/-- Column-name sanitization of `DatabaseManager.store_police_data`
(src/database.py lines 123-129). -/
def storeCleanName (col : String) : String :=
  let s := replaceL ['.'] ['_'] (replaceL ['-'] ['_'] (replaceL [' '] ['_'] col.data))
  let s := s.filter (fun c => c.isAlphanum || c == '_')
  String.mk (trimChar '_' s)

/-- The column transformations of `DatabaseManager.store_police_data`
(src/database.py lines 117-136): dedup, sanitize names, dedup again. -/
def store_columns (cols : List (String × Column)) : List (String × Column) :=
  dedupKeys ((dedupKeys cols).map (fun p => (storeCleanName p.1, p.2)))


@[simp] theorem hasColumn_nil {c : String} : hasColumn c [] = false := rfl

@[simp] theorem hasColumn_cons {c k : String} {v : Column} {rest : List (String × Column)} :
    hasColumn c ((k, v) :: rest) = ((k == c) || hasColumn c rest) := rfl

@[simp] theorem lookupColumn_nil {c : String} : lookupColumn c [] = none := rfl

@[simp] theorem lookupColumn_cons {c k : String} {v : Column} {rest : List (String × Column)} :
    lookupColumn c ((k, v) :: rest) =
      if k == c then some v else lookupColumn c rest := rfl

@[simp] theorem keys_nil : keys [] = [] := rfl

@[simp] theorem keys_cons {k : String} {v : Column} {rest : List (String × Column)} :
    keys ((k, v) :: rest) = k :: keys rest := rfl

theorem hasColumn_append {c : String} {l l' : List (String × Column)} :
    hasColumn c (l ++ l') = (hasColumn c l || hasColumn c l') := by
  simp [hasColumn, List.any_append]

theorem hasColumn_iff_mem_keys {c : String} {l : List (String × Column)} :
    hasColumn c l = true ↔ c ∈ keys l := by
  induction l with
  | nil => simp
  | cons p rest ih =>
    obtain ⟨k, v⟩ := p
    simp only [hasColumn_cons, keys_cons, List.mem_cons, Bool.or_eq_true,
      beq_iff_eq, ih]
    constructor
    · rintro (h | h)
      · exact Or.inl h.symm
      · exact Or.inr h
    · rintro (h | h)
      · exact Or.inl h.symm
      · exact Or.inr h

theorem lookupColumn_none_iff {c : String} {l : List (String × Column)} :
    lookupColumn c l = none ↔ hasColumn c l = false := by
  induction l with
  | nil => simp
  | cons p rest ih =>
    obtain ⟨k, v⟩ := p
    by_cases hk : (k == c) = true
    · simp [hk]
    · simp only [Bool.not_eq_true] at hk
      simp [hk, ih]

theorem lookupColumn_append_left {c : String} {l l' : List (String × Column)}
    {v : Column} (h : lookupColumn c l = some v) :
    lookupColumn c (l ++ l') = some v := by
  induction l with
  | nil => simp at h
  | cons p rest ih =>
    obtain ⟨k, w⟩ := p
    rw [List.cons_append]
    by_cases hk : (k == c) = true
    · simp [hk] at h ⊢
      exact h
    · simp [hk] at h ⊢
      exact ih h

theorem lookupColumn_append_right {c : String} {l l' : List (String × Column)}
    (h : hasColumn c l = false) :
    lookupColumn c (l ++ l') = lookupColumn c l' := by
  induction l with
  | nil => simp
  | cons p rest ih =>
    obtain ⟨k, w⟩ := p
    simp only [hasColumn_cons, Bool.or_eq_false_iff] at h
    rw [List.cons_append, lookupColumn_cons, if_neg (by simp [h.1])]
    exact ih h.2

theorem hasColumn_addOne_mono {c d : String} {n : Nat} {cols : List (String × Column)}
    (h : hasColumn c cols = true) : hasColumn c (addOne n d cols) = true := by
  unfold addOne
  split
  · exact h
  · simp [hasColumn_append, h]

theorem hasColumn_addOne_self {c : String} {n : Nat} {cols : List (String × Column)} :
    hasColumn c (addOne n c cols) = true := by
  unfold addOne
  split
  · assumption
  · simp [hasColumn_append]

theorem hasColumn_addOne_other {c d : String} {n : Nat} {cols : List (String × Column)}
    (hne : d ≠ c) : hasColumn c (addOne n d cols) = hasColumn c cols := by
  unfold addOne
  split
  · rfl
  · simp [hasColumn_append, hne]

theorem lookupColumn_addOne_other {c d : String} {n : Nat}
    {cols : List (String × Column)} (hne : d ≠ c) :
    lookupColumn c (addOne n d cols) = lookupColumn c cols := by
  unfold addOne
  split
  · rfl
  · cases hl : lookupColumn c cols with
    | some v => exact lookupColumn_append_left hl
    | none =>
      rw [lookupColumn_append_right (lookupColumn_none_iff.1 hl)]
      simp [hl, hne]

theorem lookupColumn_addOne_self {c : String} {n : Nat} {cols : List (String × Column)}
    (h : hasColumn c cols = false) :
    lookupColumn c (addOne n c cols) = some (List.replicate n none) := by
  unfold addOne
  rw [if_neg (by simp [h]), lookupColumn_append_right h]
  simp

theorem hasColumn_filter_ne {c d : String} {cols : List (String × Column)}
    (hne : c ≠ d) :
    hasColumn c (cols.filter fun p => !(p.1 == d)) = hasColumn c cols := by
  induction cols with
  | nil => simp
  | cons p rest ih =>
    obtain ⟨k, v⟩ := p
    by_cases hk : (k == d) = true
    · have hkc : (k == c) = false := by
        simp only [beq_iff_eq] at hk ⊢
        simp [hk, Ne.symm hne]
      simp [List.filter_cons, hk, ih, hkc]
    · simp only [Bool.not_eq_true] at hk
      simp [List.filter_cons, hk, ih]

theorem lookupColumn_filter_ne {c d : String} {cols : List (String × Column)}
    (hne : c ≠ d) :
    lookupColumn c (cols.filter fun p => !(p.1 == d)) = lookupColumn c cols := by
  induction cols with
  | nil => simp
  | cons p rest ih =>
    obtain ⟨k, v⟩ := p
    by_cases hk : (k == d) = true
    · have hkc : (k == c) = false := by
        simp only [beq_iff_eq] at hk ⊢
        simp [hk, Ne.symm hne]
      simp [List.filter_cons, hk, ih, hkc]
    · simp only [Bool.not_eq_true] at hk
      by_cases hkc : (k == c) = true
      · simp [List.filter_cons, hk, hkc]
      · simp [List.filter_cons, hk, hkc, ih]

theorem lngFix_hasColumn {c : String} {cols : List (String × Column)}
    (hne : c ≠ "lng") (h : hasColumn c cols = true) :
    hasColumn c (lngFix cols) = true := by
  unfold lngFix
  split
  · cases hl : lookupColumn "lng" cols with
    | some v => simp [hasColumn_append, hasColumn_filter_ne hne, h]
    | none => exact h
  · exact h

theorem lngFix_lookup {c : String} {cols : List (String × Column)}
    (hne : c ≠ "lng") (hne' : c ≠ "longitude") :
    lookupColumn c (lngFix cols) = lookupColumn c cols := by
  unfold lngFix
  split
  · cases hl : lookupColumn "lng" cols with
    | some v =>
      cases hc : lookupColumn c cols with
      | some w =>
        exact lookupColumn_append_left ((lookupColumn_filter_ne hne).trans hc)
      | none =>
        rw [lookupColumn_append_right]
        · simp [Ne.symm hne']
        · rw [← lookupColumn_none_iff, lookupColumn_filter_ne hne]
          exact hc
    | none => rfl
  · rfl

theorem not_mem_keys_filter_self {k : String} {l : List (String × Column)} :
    k ∉ keys (l.filter fun p => !(p.1 == k)) := by
  intro h
  rcases List.mem_map.1 h with ⟨p, hp, hfst⟩
  have hmem := List.of_mem_filter hp
  simp [hfst] at hmem

theorem keys_filter_sublist {f : String × Column → Bool} {l : List (String × Column)} :
    List.Sublist (keys (l.filter f)) (keys l) :=
  (List.filter_sublist l).map Prod.fst

theorem nodup_keys_dedupKeys : ∀ l : List (String × Column), (keys (dedupKeys l)).Nodup
  | [] => by simp [dedupKeys]
  | (k, v) :: rest => by
    simp only [dedupKeys, keys_cons, List.nodup_cons]
    exact ⟨not_mem_keys_filter_self,
      (keys_filter_sublist).nodup (nodup_keys_dedupKeys rest)⟩

theorem nodup_keys_addOne {n : Nat} {c : String} {cols : List (String × Column)}
    (h : (keys cols).Nodup) : (keys (addOne n c cols)).Nodup := by
  unfold addOne
  split
  · exact h
  · rename_i hc
    have hnotmem : c ∉ keys cols := by
      intro hmem
      exact hc (hasColumn_iff_mem_keys.2 hmem)
    simp only [keys, List.map_append, List.map_cons, List.map_nil]
    rw [List.nodup_append]
    exact ⟨h, by simp, by
      intro x hx hmem
      simp only [List.mem_singleton] at hmem
      exact hnotmem (hmem ▸ hx)⟩

theorem nodup_keys_lngFix {cols : List (String × Column)}
    (h : (keys cols).Nodup) : (keys (lngFix cols)).Nodup := by
  unfold lngFix
  split
  · rename_i hcond
    simp only [Bool.and_eq_true, Bool.not_eq_true'] at hcond
    cases hl : lookupColumn "lng" cols with
    | some v =>
      have hnotmem : "longitude" ∉ keys cols := by
        intro hmem
        have := hasColumn_iff_mem_keys.2 hmem
        rw [hcond.2] at this
        exact Bool.noConfusion this
      simp only [keys, List.map_append, List.map_cons, List.map_nil]
      rw [List.nodup_append]
      refine ⟨(keys_filter_sublist).nodup h, by simp, ?_⟩
      intro x hx hmem
      simp only [List.mem_singleton] at hmem
      subst hmem
      exact hnotmem (keys_filter_sublist.mem hx)
    | none => exact h
  · exact h

theorem addRequired_eq {n : Nat} {cols : List (String × Column)} :
    addRequired n cols =
      addOne n "driver_gender" (addOne n "driver_race" (addOne n "stop_date" cols)) :=
  rfl

/-- C3: for every input table, however its source columns are named, the
normalized output contains `stop_date`, `driver_race` and `driver_gender`;
whenever no source column was mapped onto one of them, that column is
synthesized with a null marker in every row. -/
theorem standardize_required_totality (df : DataFrame) :
    (∀ c ∈ requiredColumns, hasColumn c (standardize_columns df).cols = true) ∧
    (∀ c ∈ requiredColumns,
      hasColumn c (dedupKeys (renameCols df.cols)) = false →
      lookupColumn c (standardize_columns df).cols =
        some (List.replicate df.nrows none)) := by
  constructor
  · intro c hc
    show hasColumn c (lngFix (addRequired df.nrows (dedupKeys (renameCols df.cols)))) = true
    rw [addRequired_eq]
    simp only [requiredColumns, List.mem_cons, List.mem_singleton,
      List.not_mem_nil, or_false] at hc
    rcases hc with rfl | rfl | rfl
    · exact lngFix_hasColumn (by decide)
        (hasColumn_addOne_mono (hasColumn_addOne_mono hasColumn_addOne_self))
    · exact lngFix_hasColumn (by decide)
        (hasColumn_addOne_mono hasColumn_addOne_self)
    · exact lngFix_hasColumn (by decide) hasColumn_addOne_self
  · intro c hc h
    show lookupColumn c (lngFix (addRequired df.nrows (dedupKeys (renameCols df.cols)))) = _
    simp only [requiredColumns, List.mem_cons, List.mem_singleton,
      List.not_mem_nil, or_false] at hc
    rcases hc with rfl | rfl | rfl
    · rw [lngFix_lookup (by decide) (by decide), addRequired_eq,
        lookupColumn_addOne_other (by decide), lookupColumn_addOne_other (by decide),
        lookupColumn_addOne_self h]
    · rw [lngFix_lookup (by decide) (by decide), addRequired_eq,
        lookupColumn_addOne_other (by decide),
        lookupColumn_addOne_self (by rw [hasColumn_addOne_other (by decide)]; exact h)]
    · rw [lngFix_lookup (by decide) (by decide), addRequired_eq,
        lookupColumn_addOne_self (by
          rw [hasColumn_addOne_other (by decide), hasColumn_addOne_other (by decide)]
          exact h)]

/-- C3 witness: a table with a single unmapped column `foo` gets `driver_race`
injected as an all-null column. -/
theorem standardize_required_totality_witness :
    hasColumn "driver_race" (standardize_columns ⟨1, [("foo", [some "x"])]⟩).cols = true ∧
    lookupColumn "driver_race" (standardize_columns ⟨1, [("foo", [some "x"])]⟩).cols =
      some (List.replicate 1 none) :=
  ⟨(standardize_required_totality ⟨1, [("foo", [some "x"])]⟩).1 "driver_race" (by decide),
   (standardize_required_totality ⟨1, [("foo", [some "x"])]⟩).2 "driver_race"
     (by decide) (by decide)⟩

/-- C7: after normalization no two output columns share a name (for every
input), and a source carrying both `lng` and `longitude` yields exactly one
`longitude` column and no `lng` column. -/
theorem standardize_no_duplicate_columns :
    (∀ df : DataFrame, (keys (standardize_columns df).cols).Nodup) ∧
    keys (standardize_columns ⟨1, [("lng", [some "1"]), ("longitude", [some "2"])]⟩).cols =
      ["longitude", "stop_date", "driver_race", "driver_gender"] := by
  constructor
  · intro df
    show (keys (lngFix (addRequired df.nrows (dedupKeys (renameCols df.cols))))).Nodup
    rw [addRequired_eq]
    exact nodup_keys_lngFix
      (nodup_keys_addOne (nodup_keys_addOne (nodup_keys_addOne
        (nodup_keys_dedupKeys _))))
  · decide

/-- The CSV of the C1 scenario: source columns exactly `race, sex, arrest, date`. -/
def seattleCsv : DataFrame :=
  ⟨2, [("race", [some "black", some "white"]),
       ("sex", [some "M", some "F"]),
       ("arrest", [some "1", some "0"]),
       ("date", [some "2015-01-01", some "2015-01-02"])]⟩

/-- C1 counterexample: loading the `race, sex, arrest, date` CSV does create
table `police_data_seattle`, but the stored table has no `arrest_made` column —
the mapper renames an arrest column only when its name also contains `made` or
`performed`, and bare `arrest` does not, so the claimed canonical column set is
wrong. -/
theorem seattle_csv_no_arrest_made :
    get_table_name "Seattle Police Department" = "police_data_seattle" ∧
    keys (store_columns (standardize_columns seattleCsv).cols) =
      ["race", "sex", "arrest", "date", "stop_date", "driver_race", "driver_gender"] ∧
    hasColumn "arrest_made" (store_columns (standardize_columns seattleCsv).cols) = false := by
  decide

/-- C1 (amended): loading department "Seattle Police Department" with a CSV
whose source columns are exactly `race, sex, arrest, date` creates table
`police_data_seattle`; the stored table keeps the four source columns unchanged
(none matches a rename predicate) and gains `stop_date`, `driver_race` and
`driver_gender` as synthesized all-null columns, but not `arrest_made`. -/
theorem seattle_csv_columns :
    get_table_name "Seattle Police Department" = "police_data_seattle" ∧
    hasColumn "driver_race" (store_columns (standardize_columns seattleCsv).cols) = true ∧
    hasColumn "driver_gender" (store_columns (standardize_columns seattleCsv).cols) = true ∧
    hasColumn "stop_date" (store_columns (standardize_columns seattleCsv).cols) = true ∧
    lookupColumn "driver_race" (store_columns (standardize_columns seattleCsv).cols) =
      some [none, none] ∧
    lookupColumn "driver_gender" (store_columns (standardize_columns seattleCsv).cols) =
      some [none, none] ∧
    lookupColumn "stop_date" (store_columns (standardize_columns seattleCsv).cols) =
      some [none, none] := by
  decide

/-! ## Table-name substitution (`DatabaseManager.execute_sql_query`, src/database.py line 198):
`query = re.sub(r'\bpolice_data\b(?!_)', table_name, query)` -/

/-- Python regex word character for `\b`.  Python's `\w` additionally covers
non-ASCII unicode word characters; every character these claims touch is
ASCII, where the two notions agree. -/
def isWordChar (c : Char) : Bool :=
  c.isAlphanum || c == '_'

/-- Trailing boundary of the pattern: the regex requires a `\b` after
`police_data` and a `(?!_)` lookahead; since `_` is a word character the `\b`
alone already rejects it, so both collapse to "next char absent or not a word
character". -/
def boundaryOk : List Char → Bool
  | [] => true
  | c :: _ => !isWordChar c

def pdPlaceholder : List Char := "police_data".data

/-- The regex matches at the head of `s` (given that the leading `\b` holds),
i.e. `s` starts with `police_data` followed by a boundary. -/
def pdMatch (s : List Char) : Bool :=
  startsWithL pdPlaceholder s && boundaryOk (List.drop pdPlaceholder.length s)

/-- Scanner for `re.sub(r'\bpolice_data\b(?!_)', table, query)`: `prevW` records
whether the previous character of the original text is a word character (the
leading `\b`), `skip` counts characters of an already-matched placeholder still
to be discarded. -/
def substAux (T : List Char) : Nat → Bool → List Char → List Char
  | _, _, [] => []
  | skip, prevW, c :: rest =>
    match skip with
    | skip' + 1 => substAux T skip' prevW rest
    | 0 =>
      if !prevW && pdMatch (c :: rest) then
        T ++ substAux T (pdPlaceholder.length - 1) true rest
      else
        c :: substAux T 0 (isWordChar c) rest

/-- The table-name substitution performed by `DatabaseManager.execute_sql_query`
(src/database.py line 198). -/
def substPoliceData (table query : String) : String :=
  String.mk (substAux table.data 0 false query.data)

theorem startsWithL_eq_append {p : List Char} :
    ∀ {s}, startsWithL p s = true → s = p ++ List.drop p.length s := by
  induction p with
  | nil => intro s _; simp
  | cons a as ih =>
    intro s h
    cases s with
    | nil => simp [startsWithL] at h
    | cons c cs =>
      simp only [startsWithL, Bool.and_eq_true, beq_iff_eq] at h
      obtain ⟨rfl, h2⟩ := h
      simpa [List.cons_append] using ih h2

theorem substAux_skip_consume {T : List Char} :
    ∀ (xs : List Char) {ys : List Char} {w : Bool},
      substAux T xs.length w (xs ++ ys) = substAux T 0 w ys := by
  intro xs
  induction xs with
  | nil => intro ys w; rfl
  | cons x rest ih =>
    intro ys w
    simpa [substAux] using ih

theorem substAux_copy_words {T : List Char} :
    ∀ (p : List Char), (∀ c ∈ p, isWordChar c = true) →
      ∀ xs, substAux T 0 true (p ++ xs) = p ++ substAux T 0 true xs := by
  intro p
  induction p with
  | nil => intro _ xs; simp
  | cons a rest ih =>
    intro hw xs
    have ha : isWordChar a = true := hw a (List.mem_cons_self _ _)
    have hrec := ih (fun c hc => hw c (List.mem_cons_of_mem _ hc)) xs
    have hstep : substAux T 0 true (a :: (rest ++ xs)) =
        a :: substAux T 0 (isWordChar a) (rest ++ xs) := by
      simp [substAux]
    rw [List.cons_append, hstep, ha, hrec, List.cons_append]

theorem startsWithL_substAux_false {T : List Char} :
    ∀ (q : List Char), (∀ c ∈ q, isWordChar c = true) →
      ∀ rest, startsWithL q rest = false →
        startsWithL q (substAux T 0 true rest) = false := by
  intro q
  induction q with
  | nil => intro _ rest h; simp [startsWithL] at h
  | cons qc q' ih =>
    intro hw rest h
    cases rest with
    | nil => simp [substAux, startsWithL]
    | cons rc r' =>
      have hstep : substAux T 0 true (rc :: r') = rc :: substAux T 0 (isWordChar rc) r' := by
        simp [substAux]
      rw [hstep]
      simp only [startsWithL, Bool.and_eq_false_iff] at h ⊢
      rcases h with h | h
      · exact Or.inl h
      · by_cases hqc : (qc == rc) = true
        · refine Or.inr ?_
          have hwrc : isWordChar rc = true := by
            have hq := hw qc (List.mem_cons_self _ _)
            rwa [eq_of_beq hqc] at hq
          rw [hwrc]
          exact ih (fun c hc => hw c (List.mem_cons_of_mem _ hc)) r' h
        · exact Or.inl (by simpa using hqc)

theorem substAux_cons_match {T : List Char} {w : Bool} {c : Char} {rest : List Char}
    (h : (!w && pdMatch (c :: rest)) = true) :
    substAux T 0 w (c :: rest) =
      T ++ substAux T (pdPlaceholder.length - 1) true rest := by
  show (if !w && pdMatch (c :: rest) then
      T ++ substAux T (pdPlaceholder.length - 1) true rest
    else c :: substAux T 0 (isWordChar c) rest) = _
  rw [if_pos h]

theorem substAux_cons_nomatch {T : List Char} {w : Bool} {c : Char} {rest : List Char}
    (h : (!w && pdMatch (c :: rest)) = false) :
    substAux T 0 w (c :: rest) = c :: substAux T 0 (isWordChar c) rest := by
  show (if !w && pdMatch (c :: rest) then
      T ++ substAux T (pdPlaceholder.length - 1) true rest
    else c :: substAux T 0 (isWordChar c) rest) = _
  rw [if_neg (by simp [h])]

theorem startsWithL_refl_append : ∀ (p t : List Char), startsWithL p (p ++ t) = true := by
  intro p
  induction p with
  | nil => intro t; rfl
  | cons a as ih => intro t; simp [startsWithL, ih]

theorem pdPlaceholder_eq : pdPlaceholder = 'p' :: "olice_data".data := rfl

theorem pdMatch_cons (c : Char) (s : List Char) :
    pdMatch (c :: s) =
      (('p' == c) && (startsWithL "olice_data".data s && boundaryOk (List.drop 10 s))) := by
  have h1 : pdMatch (c :: s) =
      ((('p' == c) && startsWithL "olice_data".data s) &&
        boundaryOk (List.drop 10 s)) := rfl
  rw [h1, Bool.and_assoc]

theorem pdMatch_substAux_false {T : List Char} :
    ∀ rest, pdMatch ('p' :: rest) = false →
      pdMatch ('p' :: substAux T 0 true rest) = false := by
  intro rest h
  rw [pdMatch_cons] at h ⊢
  simp only [show ('p' == 'p') = true from rfl, Bool.true_and] at h ⊢
  cases hsw : startsWithL "olice_data".data rest with
  | false =>
    have hres := startsWithL_substAux_false (T := T) "olice_data".data (by decide) rest hsw
    simp [hres]
  | true =>
    rcases Bool.and_eq_false_iff.1 h with h1 | h1
    · exact absurd hsw (by simp [h1])
    · have hdecomp := startsWithL_eq_append hsw
      rw [show "olice_data".data.length = 10 from rfl] at hdecomp
      cases hd : List.drop 10 rest with
      | nil => rw [hd] at h1; simp [boundaryOk] at h1
      | cons rc r' =>
        rw [hd] at h1 hdecomp
        simp only [boundaryOk, Bool.not_eq_false] at h1
        rw [hdecomp, substAux_copy_words "olice_data".data (by decide)]
        have hstep : substAux T 0 true (rc :: r') =
            rc :: substAux T 0 (isWordChar rc) r' :=
          substAux_cons_nomatch (by simp)
        rw [hstep]
        have h2 : List.drop 10 ("olice_data".data ++
            rc :: substAux T 0 (isWordChar rc) r') =
            rc :: substAux T 0 (isWordChar rc) r' := by
          rw [show (10 : Nat) = "olice_data".data.length from rfl, List.drop_left]
        rw [h2, startsWithL_refl_append]
        simp [boundaryOk, h1]

def seattleTbl : List Char := "police_data_seattle".data

theorem substAux_seattle_head :
    ∀ xs, substAux seattleTbl 0 false (seattleTbl ++ xs) =
      seattleTbl ++ substAux seattleTbl 0 true xs := by
  intro xs
  have hmatch : (!false && pdMatch ('p' :: ("olice_data_seattle".data ++ xs))) = false := by
    rw [pdMatch_cons]
    have hb : boundaryOk (List.drop 10 ("olice_data_seattle".data ++ xs)) = false := rfl
    simp only [Bool.not_false, Bool.true_and, Bool.and_eq_false_iff]
    exact Or.inr (Or.inr rfl)
  have hhead : seattleTbl ++ xs = 'p' :: ("olice_data_seattle".data ++ xs) := rfl
  rw [hhead, substAux_cons_nomatch hmatch,
    show isWordChar 'p' = true from rfl,
    substAux_copy_words "olice_data_seattle".data (by decide)]
  rfl

theorem substAux_seattle_idem :
    ∀ (n : Nat) (s : List Char), s.length ≤ n → ∀ w,
      substAux seattleTbl 0 w (substAux seattleTbl 0 w s) =
        substAux seattleTbl 0 w s := by
  intro n
  induction n with
  | zero =>
    intro s hs w
    have hnil : s = [] := List.length_eq_zero.mp (Nat.le_zero.mp hs)
    subst hnil
    rfl
  | succ n ih =>
    intro s hs w
    cases s with
    | nil => rfl
    | cons c rest =>
      by_cases hC : (!w && pdMatch (c :: rest)) = true
      · have hCand := hC
        simp only [Bool.and_eq_true] at hCand
        have hw : w = false := by simpa using hCand.1
        subst hw
        have hpm : pdMatch (c :: rest) = true := hCand.2
        have hsw : startsWithL pdPlaceholder (c :: rest) = true := by
          have h := hpm
          unfold pdMatch at h
          simp only [Bool.and_eq_true] at h
          exact h.1
        have hdecomp := startsWithL_eq_append hsw
        rw [pdPlaceholder_eq] at hdecomp
        have hrest : rest =
            "olice_data".data ++ List.drop pdPlaceholder.length (c :: rest) := by
          have := hdecomp
          rw [List.cons_append] at this
          exact (List.cons_eq_cons.mp this).2
        have hlen10 : pdPlaceholder.length - 1 = ("olice_data".data).length := rfl
        have hstep : substAux seattleTbl 0 false (c :: rest) =
            seattleTbl ++ substAux seattleTbl 0 true
              (List.drop pdPlaceholder.length (c :: rest)) := by
          rw [substAux_cons_match hC]
          congr 1
          rw [hlen10]
          conv =>
            lhs
            rw [hrest]
          exact substAux_skip_consume _
        rw [hstep, substAux_seattle_head]
        congr 1
        have hs'len : (List.drop pdPlaceholder.length (c :: rest)).length ≤ n := by
          have h1 : (c :: rest).length ≤ n + 1 := hs
          have h2 : (List.drop pdPlaceholder.length (c :: rest)).length =
              (c :: rest).length - pdPlaceholder.length := List.length_drop _ _
          have h3 : 1 ≤ pdPlaceholder.length := by decide
          omega
        exact ih _ hs'len true
      · have hC' : (!w && pdMatch (c :: rest)) = false := Bool.eq_false_iff.2 hC
        rw [substAux_cons_nomatch hC']
        have houter : (!w && pdMatch
            (c :: substAux seattleTbl 0 (isWordChar c) rest)) = false := by
          cases hwv : w with
          | true => simp
          | false =>
            have hpm : pdMatch (c :: rest) = false := by
              rw [hwv] at hC'
              simpa using hC'
            by_cases hcp : c = 'p'
            · subst hcp
              rw [show isWordChar 'p' = true from rfl]
              have := pdMatch_substAux_false (T := seattleTbl) rest hpm
              simp [this]
            · have hall : pdMatch (c :: substAux seattleTbl 0 (isWordChar c) rest) = false := by
                rw [pdMatch_cons]
                have hpc : ('p' == c) = false := by
                  simp [beq_eq_false_iff_ne, Ne.symm hcp]
                simp [hpc]
              simp [hall]
        rw [substAux_cons_nomatch houter]
        congr 1
        exact ih rest (by simpa using Nat.le_of_succ_le_succ hs) (isWordChar c)

/-- C5: the substitution only rewrites the standalone whole-word placeholder
`police_data`; a query already written against `police_data_seattle` is left
alone, and applying the substitution to an already-substituted query is the
identity. -/
theorem substPoliceData_idempotent :
    (∀ q : String,
      substPoliceData (get_table_name "Seattle Police Department")
          (substPoliceData (get_table_name "Seattle Police Department") q) =
        substPoliceData (get_table_name "Seattle Police Department") q) ∧
    substPoliceData (get_table_name "Seattle Police Department")
        "SELECT COUNT(*) FROM police_data_seattle" =
      "SELECT COUNT(*) FROM police_data_seattle" := by
  constructor
  · intro q
    have hT : (get_table_name "Seattle Police Department").data = seattleTbl := by
      rw [get_table_name_seattle]
      rfl
    show String.mk (substAux (get_table_name "Seattle Police Department").data 0 false
        (substAux (get_table_name "Seattle Police Department").data 0 false q.data)) =
      String.mk (substAux (get_table_name "Seattle Police Department").data 0 false q.data)
    rw [hT]
    exact congrArg String.mk (substAux_seattle_idem q.data.length q.data le_rfl false)
  · decide

/-! ## Query translation (`PoliceDataLLMAgent.generate_sql_query`, src/llm_agent.py lines 153-287) -/

/-- Python `question.lower()` (ASCII). -/
def lowerStr (s : String) : String :=
  String.mk (s.data.map Char.toLower)

/-- Python `needle in haystack` on strings. -/
def inStr (needle haystack : String) : Bool :=
  occursIn needle.data haystack.data

/-- Python `str.find`: index of the first occurrence, `none` for Python's -1. -/
def findSub (p : List Char) : List Char → Option Nat
  | [] => if startsWithL p [] then some 0 else none
  | c :: rest =>
    if startsWithL p (c :: rest) then some 0
    else (findSub p rest).map (· + 1)

/-- Python `s.strip()` (ASCII whitespace). -/
def trimWhitespace (s : List Char) : List Char :=
  ((s.dropWhile Char.isWhitespace).reverse.dropWhile Char.isWhitespace).reverse

/-- `PoliceDataLLMAgent._clean_sql_response` (src/llm_agent.py lines 289-321):
strip `<think>` blocks, code fences, repair a dangling `ORDER`/missing
`ORDER BY`, rewrite `HOUR(time)` to the SQLite portable form, drop a trailing
semicolon, and strip surrounding whitespace. -/
def clean_sql_response (raw : String) : String :=
  let s := raw.data
  let s :=
    if occursIn "<think>".data s then
      match findSub "<think>".data s, findSub "</think>".data s with
      | some ts, some te => List.take ts s ++ List.drop (te + 8) s
      | some ts, none => List.take ts s
      | none, _ => s
    else s
  let s :=
    if startsWithL "```sql".data s then List.drop 6 s
    else if startsWithL "```".data s then List.drop 3 s
    else s
  let s := if endsWithL "```".data s then List.take (s.length - 3) s else s
  let u := s.map Char.toUpper
  let s :=
    if endsWithL " ORDER".data u then s ++ " BY COUNT(*) DESC".data
    else if occursIn "GROUP BY".data u && !occursIn "ORDER BY".data u then
      if occursIn "COUNT(".data u then s ++ " ORDER BY COUNT(*) DESC".data else s
    else s
  let s := replaceL "HOUR(time)".data "CAST(substr(time, 1, 2) AS INTEGER)".data s
  let s := if endsWithL ";".data s then List.take (s.length - 1) s else s
  String.mk (trimWhitespace s)

/-- Environment of the generative tier: no credential configured, table-info
lookup failed, the model answered with raw text, or something in the `try`
block raised (caught by the `except` at src/llm_agent.py lines 282-287). -/
inductive LLMEnv where
  | noApiKey : LLMEnv
  | tableInfoMissing : LLMEnv
  | response (raw : String) : LLMEnv
  | raises : LLMEnv

def countStopsQuery (t : String) : String :=
  "SELECT COUNT(*) as total_stops FROM " ++ t

def countArrestsQuery (t : String) : String :=
  "SELECT COUNT(*) as total_arrests FROM " ++ t ++ " WHERE arrest_made = 1"

/-- Shared head of the two arrest-rate templates (src/llm_agent.py lines
174-183 and 186-195). -/
def arrestRatePrefix : String :=
  "\n                SELECT driver_race, \n                       COUNT(*) as total_stops,\n                       SUM(CASE WHEN arrest_made = 1 THEN 1 ELSE 0 END) as arrests,\n                       ROUND(100.0 * SUM(CASE WHEN arrest_made = 1 THEN 1 ELSE 0 END) / COUNT(*), 2) as arrest_rate\n                FROM "

def comparativeSuffix : String :=
  " \n                WHERE driver_race IN ('black', 'white') \n                GROUP BY driver_race \n                ORDER BY arrest_rate DESC\n                "

def byRaceSuffix : String :=
  " \n                WHERE driver_race IS NOT NULL \n                GROUP BY driver_race \n                ORDER BY arrests DESC\n                "

def comparativeArrestRateQuery (t : String) : String :=
  arrestRatePrefix ++ t ++ comparativeSuffix

def arrestsByRaceQuery (t : String) : String :=
  arrestRatePrefix ++ t ++ byRaceSuffix

def citationsQuery (t : String) : String :=
  "SELECT COUNT(*) as total_citations FROM " ++ t ++ " WHERE citation_issued = 1"

def warningsQuery (t : String) : String :=
  "SELECT COUNT(*) as total_warnings FROM " ++ t ++ " WHERE warning_issued = 1"

def peakHourQuery (t : String) : String :=
  "\n                SELECT CAST(substr(time, 1, 2) AS INTEGER) as hour, \n                       COUNT(*) as stop_count \n                FROM " ++ t ++
    " \n                WHERE time IS NOT NULL AND length(time) >= 2\n                GROUP BY hour \n                ORDER BY stop_count DESC\n                "

def monthlyQuery (t : String) : String :=
  "\n                SELECT strftime('%Y-%m', date) as month, \n                       COUNT(*) as stops \n                FROM " ++ t ++
    " \n                WHERE date IS NOT NULL \n                GROUP BY month \n                ORDER BY month\n                "

def districtQuery (t : String) : String :=
  "\n                SELECT district, COUNT(*) as stops \n                FROM " ++ t ++
    " \n                WHERE district IS NOT NULL \n                GROUP BY district \n                ORDER BY stops DESC \n                LIMIT 10\n                "

def averageAgeQuery (t : String) : String :=
  "\n                SELECT ROUND(AVG(CAST(driver_age AS FLOAT)), 1) as average_age \n                FROM " ++ t ++
    " \n                WHERE driver_age IS NOT NULL AND driver_age > 0 AND driver_age < 120\n                "

def raceStopsQuery (t : String) : String :=
  "\n                SELECT driver_race, COUNT(*) as stops \n                FROM " ++ t ++
    " \n                WHERE driver_race IS NOT NULL \n                GROUP BY driver_race \n                ORDER BY stops DESC\n                "

def fallbackRecordsQuery (t : String) : String :=
  "SELECT COUNT(*) as total_records FROM " ++ t

/-- The deterministic pattern tier of `generate_sql_query` (src/llm_agent.py
lines 166-247): the if/elif chain over the lower-cased question, first match
wins.  `none` means the chain fell through to the generative/fallback tier. -/
def patternQuery (ql t : String) : Option String :=
  if inStr "total number of stops" ql || inStr "how many stops" ql then
    some (countStopsQuery t)
  else if inStr "how many arrests" ql && !inStr "race" ql then
    some (countArrestsQuery t)
  else if inStr "arrest rate" ql && (inStr "black" ql && inStr "white" ql) then
    some (comparativeArrestRateQuery t)
  else if inStr "arrest" ql && inStr "race" ql then
    some (arrestsByRaceQuery t)
  else if inStr "citation" ql && inStr "issued" ql then
    some (citationsQuery t)
  else if inStr "warning" ql && inStr "issued" ql then
    some (warningsQuery t)
  else if inStr "peak hour" ql || inStr "hour" ql then
    some (peakHourQuery t)
  else if inStr "month" ql || inStr "over time" ql then
    some (monthlyQuery t)
  else if inStr "district" ql && inStr "highest" ql then
    some (districtQuery t)
  else if inStr "average age" ql then
    some (averageAgeQuery t)
  else if inStr "race" ql && !inStr "breakdown" ql then
    some (raceStopsQuery t)
  else none

/-- `PoliceDataLLMAgent.generate_sql_query` (src/llm_agent.py lines 153-287).
The wall-clock `generation_time` also returned by the Python function is not
modelled.  The pattern tier is pure, so an exception (`LLMEnv.raises`) can only
arise on the generative path, where the `except` handler returns the safe
fallback query. -/
def generate_sql_query (question department : String) (env : LLMEnv) : String :=
  let t := get_table_name department
  let ql := lowerStr question
  match patternQuery ql t with
  | some q => q
  | none =>
    match env with
    | LLMEnv.noApiKey => countStopsQuery t
    | LLMEnv.tableInfoMissing => countStopsQuery t
    | LLMEnv.response raw => clean_sql_response raw
    | LLMEnv.raises => fallbackRecordsQuery t

theorem append_ne_empty_left (a b : String) (ha : a ≠ "") : a ++ b ≠ "" := by
  intro h
  apply ha
  have hd : a.data ++ b.data = ([] : List Char) := congrArg String.data h
  have ha' : a.data = [] := (List.append_eq_nil.mp hd).1
  obtain ⟨l⟩ := a
  have hl : l = [] := ha'
  subst hl
  rfl

theorem countStopsQuery_ne_empty (t : String) : countStopsQuery t ≠ "" :=
  append_ne_empty_left _ _ (by decide)

theorem countArrestsQuery_ne_empty (t : String) : countArrestsQuery t ≠ "" :=
  append_ne_empty_left _ _ (append_ne_empty_left _ _ (by decide))

theorem comparativeArrestRateQuery_ne_empty (t : String) :
    comparativeArrestRateQuery t ≠ "" :=
  append_ne_empty_left _ _ (append_ne_empty_left _ _ (by decide))

theorem arrestsByRaceQuery_ne_empty (t : String) : arrestsByRaceQuery t ≠ "" :=
  append_ne_empty_left _ _ (append_ne_empty_left _ _ (by decide))

theorem citationsQuery_ne_empty (t : String) : citationsQuery t ≠ "" :=
  append_ne_empty_left _ _ (append_ne_empty_left _ _ (by decide))

theorem warningsQuery_ne_empty (t : String) : warningsQuery t ≠ "" :=
  append_ne_empty_left _ _ (append_ne_empty_left _ _ (by decide))

theorem peakHourQuery_ne_empty (t : String) : peakHourQuery t ≠ "" :=
  append_ne_empty_left _ _ (append_ne_empty_left _ _ (by decide))

theorem monthlyQuery_ne_empty (t : String) : monthlyQuery t ≠ "" :=
  append_ne_empty_left _ _ (append_ne_empty_left _ _ (by decide))

theorem districtQuery_ne_empty (t : String) : districtQuery t ≠ "" :=
  append_ne_empty_left _ _ (append_ne_empty_left _ _ (by decide))

theorem averageAgeQuery_ne_empty (t : String) : averageAgeQuery t ≠ "" :=
  append_ne_empty_left _ _ (append_ne_empty_left _ _ (by decide))

theorem raceStopsQuery_ne_empty (t : String) : raceStopsQuery t ≠ "" :=
  append_ne_empty_left _ _ (append_ne_empty_left _ _ (by decide))

set_option maxHeartbeats 2000000 in
set_option maxRecDepth 4096 in
theorem patternQuery_ne_empty {ql t q : String} (h : patternQuery ql t = some q) :
    q ≠ "" := by
  unfold patternQuery at h
  split_ifs at h
  all_goals first
    | exact Option.noConfusion h
    | exact (Option.some.inj h) ▸ countStopsQuery_ne_empty t
    | exact (Option.some.inj h) ▸ countArrestsQuery_ne_empty t
    | exact (Option.some.inj h) ▸ comparativeArrestRateQuery_ne_empty t
    | exact (Option.some.inj h) ▸ arrestsByRaceQuery_ne_empty t
    | exact (Option.some.inj h) ▸ citationsQuery_ne_empty t
    | exact (Option.some.inj h) ▸ warningsQuery_ne_empty t
    | exact (Option.some.inj h) ▸ peakHourQuery_ne_empty t
    | exact (Option.some.inj h) ▸ monthlyQuery_ne_empty t
    | exact (Option.some.inj h) ▸ districtQuery_ne_empty t
    | exact (Option.some.inj h) ▸ averageAgeQuery_ne_empty t
    | exact (Option.some.inj h) ▸ raceStopsQuery_ne_empty t

theorem generate_sql_query_eq (question department : String) (env : LLMEnv) :
    generate_sql_query question department env =
      match patternQuery (lowerStr question) (get_table_name department) with
      | some q => q
      | none =>
        match env with
        | LLMEnv.noApiKey => countStopsQuery (get_table_name department)
        | LLMEnv.tableInfoMissing => countStopsQuery (get_table_name department)
        | LLMEnv.response raw => clean_sql_response raw
        | LLMEnv.raises => fallbackRecordsQuery (get_table_name department) := rfl

/-- C2 (amended): `generate_sql_query` is total — it returns a query string for
every question, department and environment, and an exception in the generative
tier degrades to the trivial COUNT(*) fallback; the returned query is non-empty
in every branch except the generative tier itself, where a raw model response
that sanitizes to the empty string is returned as-is (so the unqualified
non-emptiness in the claim fails). -/
theorem generate_sql_query_total (question department : String) (env : LLMEnv) :
    (generate_sql_query question department LLMEnv.raises =
      (patternQuery (lowerStr question) (get_table_name department)).getD
        (fallbackRecordsQuery (get_table_name department))) ∧
    ((∀ raw, env ≠ LLMEnv.response raw) →
      generate_sql_query question department env ≠ "") := by
  constructor
  · rw [generate_sql_query_eq]
    cases hp : patternQuery (lowerStr question) (get_table_name department) with
    | some q => rfl
    | none => rfl
  · intro hresp
    rw [generate_sql_query_eq]
    cases hp : patternQuery (lowerStr question) (get_table_name department) with
    | some q => exact patternQuery_ne_empty hp
    | none =>
      cases env with
      | noApiKey => exact append_ne_empty_left _ _ (by decide)
      | tableInfoMissing => exact append_ne_empty_left _ _ (by decide)
      | raises => exact append_ne_empty_left _ _ (by decide)
      | response raw => exact absurd rfl (hresp raw)

/-- C2 witness: a concrete no-credential run returns a non-empty query. -/
theorem generate_sql_query_total_witness :
    generate_sql_query "hello" "Boston" LLMEnv.noApiKey ≠ "" :=
  (generate_sql_query_total "hello" "Boston" LLMEnv.noApiKey).2
    (fun _ h => LLMEnv.noConfusion h)

/-- C2 counterexample: with a credential configured and the model answering the
empty string, `_clean_sql_response` returns the empty string and
`generate_sql_query` hands it through — the "always non-empty" part of the
claim is false. -/
theorem generate_sql_query_empty_llm_response :
    generate_sql_query "xyzzy" "Seattle Police Department" (LLMEnv.response "") = "" := by
  decide

/-- C4: "arrest rate for black vs white" hits the comparative two-group
template (restricted to `driver_race IN ('black', 'white')`), not the generic
race template; "how many arrests were there" hits the plain arrest-count
template, not the race-grouped one — first match wins over the fixed ordering. -/
theorem pattern_priority_ordering (department : String) (env : LLMEnv) :
    generate_sql_query "arrest rate for black vs white" department env =
      comparativeArrestRateQuery (get_table_name department) ∧
    comparativeArrestRateQuery (get_table_name department) ≠
      arrestsByRaceQuery (get_table_name department) ∧
    generate_sql_query "how many arrests were there" department env =
      countArrestsQuery (get_table_name department) ∧
    countArrestsQuery (get_table_name department) ≠
      arrestsByRaceQuery (get_table_name department) := by
  refine ⟨rfl, ?_, rfl, ?_⟩
  · intro h
    have hd : (arrestRatePrefix.data ++ (get_table_name department).data) ++
        comparativeSuffix.data =
        (arrestRatePrefix.data ++ (get_table_name department).data) ++
        byRaceSuffix.data := by
      have := congrArg String.data h
      simpa [comparativeArrestRateQuery, arrestsByRaceQuery] using this
    have h2 : comparativeSuffix.data = byRaceSuffix.data := List.append_cancel_left hd
    exact absurd h2 (by decide)
  · intro h
    have hh : (countArrestsQuery (get_table_name department)).data.head? =
        (arrestsByRaceQuery (get_table_name department)).data.head? := by rw [h]
    rw [show (countArrestsQuery (get_table_name department)).data.head? =
          some 'S' from rfl,
        show (arrestsByRaceQuery (get_table_name department)).data.head? =
          some '\n' from rfl] at hh
    exact absurd hh (by decide)

/-- Modelled from the spec: the relational store's execution of the plain count
query returns a single row binding `total_stops` to the table's row count
(SQLite `COUNT(*)` semantics; the SQLite engine itself is outside src/). -/
def run_count_query (nrows : Nat) : List (List (String × Nat)) :=
  [[("total_stops", nrows)]]

/-- C9: in the deterministic configurations (no credential — the repository's
default, since `GROQ_API_KEY` defaults to `None` — or credential present but
table-info lookup failing), "How many total stops?" yields exactly
`SELECT COUNT(*) as total_stops FROM police_data_seattle`, and executing that
count on a 10,000-row table yields the single row `{total_stops: 10000}`. -/
theorem how_many_total_stops_scenario :
    generate_sql_query "How many total stops?" "Seattle Police Department"
        LLMEnv.noApiKey =
      "SELECT COUNT(*) as total_stops FROM police_data_seattle" ∧
    generate_sql_query "How many total stops?" "Seattle Police Department"
        LLMEnv.tableInfoMissing =
      "SELECT COUNT(*) as total_stops FROM police_data_seattle" ∧
    run_count_query 10000 = [[("total_stops", 10000)]] :=
  ⟨by decide, by decide, rfl⟩

/-! ## Cache & execution layer (`DatabaseManager.execute_sql_query`, src/database.py lines 191-226) -/

/-- A result row, as in pandas `to_dict('records')`. -/
abbrev Row := List (String × Nat)

/-- MD5 hex digest used in cache keys (src/database.py lines 63 and 202),
modelled as the identity content function: the development only relies on the
digest being a deterministic function of its input text. -/
def md5Hex (s : String) : String := s

/-- `DatabaseManager._get_cache_key` (src/database.py lines 61-63). -/
def get_cache_key (key : String) : String :=
  "police_data:" ++ md5Hex key

/-- The final query after table-name substitution (src/database.py line 198). -/
def final_query (department query : String) : String :=
  substPoliceData (get_table_name department) query

/-- The cache key of a query (src/database.py line 202 fed through
`_get_cache_key`): a content hash of the final substituted query text only. -/
def exec_cache_key (department query : String) : String :=
  get_cache_key ("query_" ++ md5Hex (final_query department query))

/-- The cache plus an engine-execution counter.  Entry expiry is wall-clock
time and is not modelled. -/
structure DbState where
  cache : List (String × List Row)
  execCount : Nat

def emptyDbState : DbState := ⟨[], 0⟩

def cacheLookup (k : String) : List (String × List Row) → Option (List Row)
  | [] => none
  | (k', v) :: rest => if k' == k then some v else cacheLookup k rest

/-- `cache_set` on the in-memory backend (src/database.py lines 65-84). -/
def cacheInsert (k : String) (v : List Row) (cache : List (String × List Row)) :
    List (String × List Row) :=
  (k, v) :: cache

/-- The execute-and-cache path of `execute_sql_query` (src/database.py lines
208-217): run the engine, count the execution, cache a successful result; an
engine exception (`none`) is caught (lines 219-226) and nothing is cached. -/
def runQuery (db : String → Option (List Row)) (query department : String)
    (st : DbState) : Option (List Row) × DbState :=
  match db (final_query department query) with
  | some rows =>
    (some rows, ⟨cacheInsert (exec_cache_key department query) rows st.cache,
      st.execCount + 1⟩)
  | none => (none, ⟨st.cache, st.execCount + 1⟩)

/-- `DatabaseManager.execute_sql_query` (src/database.py lines 191-226).  The
SQL engine is the oracle `db` mapping a final query string to its row set.
Note the Python cache probe is `if cached_result:` — a cached empty row list is
falsy and is treated as a cache miss, so the query is executed again. -/
def execute_sql_query (db : String → Option (List Row)) (query department : String)
    (st : DbState) : Option (List Row) × DbState :=
  match cacheLookup (exec_cache_key department query) st.cache with
  | some rows => if rows.isEmpty then runQuery db query department st else (some rows, st)
  | none => runQuery db query department st

/-- C6 counterexample: a query whose result set is empty is executed again on
the second call — the cached empty list reads back as falsy — so "a second call
with the same final query returns the cached result with no new execution" is
false: two identical calls perform two executions. -/
theorem cache_empty_result_reexecutes :
    ((execute_sql_query (fun _ => some []) "SELECT 1" "Seattle Police Department"
        (execute_sql_query (fun _ => some []) "SELECT 1" "Seattle Police Department"
          emptyDbState).2).2).execCount = 2 := by
  decide

/-- C6 (amended): the cache key is computed solely from the final substituted
query text, so two distinct questions translating to the identical final query
share one cache key and entry; provided the first execution returns at least
one row, the first call executes exactly once and the second call returns the
cached rows with the state unchanged.  (For an empty result set the cached
value is falsy on read-back and the query is re-executed, as the
counterexample shows — the claim holds only under the non-emptiness proviso.) -/
theorem execute_sql_query_cache_dedup (db : String → Option (List Row))
    (q1 q2 department : String) (st : DbState) (rows : List Row)
    (hq : final_query department q1 = final_query department q2)
    (hmiss : cacheLookup (exec_cache_key department q1) st.cache = none)
    (hdb : db (final_query department q1) = some rows)
    (hne : rows ≠ []) :
    (execute_sql_query db q1 department st).1 = some rows ∧
    (execute_sql_query db q1 department st).2.execCount = st.execCount + 1 ∧
    (execute_sql_query db q2 department
      (execute_sql_query db q1 department st).2).1 = some rows ∧
    (execute_sql_query db q2 department
      (execute_sql_query db q1 department st).2).2 =
      (execute_sql_query db q1 department st).2 := by
  have hrowsne : rows.isEmpty = false := by
    cases rows with
    | nil => exact absurd rfl hne
    | cons _ _ => rfl
  have hkey : exec_cache_key department q2 = exec_cache_key department q1 := by
    unfold exec_cache_key
    rw [hq]
  have h1 : execute_sql_query db q1 department st =
      (some rows, ⟨cacheInsert (exec_cache_key department q1) rows st.cache,
        st.execCount + 1⟩) := by
    unfold execute_sql_query
    rw [hmiss]
    unfold runQuery
    rw [hdb]
  have h2 : execute_sql_query db q2 department
      ⟨cacheInsert (exec_cache_key department q1) rows st.cache, st.execCount + 1⟩ =
      (some rows,
        ⟨cacheInsert (exec_cache_key department q1) rows st.cache,
          st.execCount + 1⟩) := by
    unfold execute_sql_query
    rw [hkey]
    have hhit : cacheLookup (exec_cache_key department q1)
        (DbState.mk (cacheInsert (exec_cache_key department q1) rows st.cache)
          (st.execCount + 1)).cache = some rows := by
      show cacheLookup _ (cacheInsert _ rows st.cache) = some rows
      unfold cacheInsert cacheLookup
      rw [if_pos (by simp)]
    rw [hhit]
    simp [hrowsne]
  refine ⟨by rw [h1], by rw [h1], ?_, ?_⟩
  · rw [h1]
    show (execute_sql_query db q2 department
      ⟨cacheInsert (exec_cache_key department q1) rows st.cache,
        st.execCount + 1⟩).1 = some rows
    rw [h2]
  · rw [h1]
    show (execute_sql_query db q2 department
      ⟨cacheInsert (exec_cache_key department q1) rows st.cache,
        st.execCount + 1⟩).2 =
      (⟨cacheInsert (exec_cache_key department q1) rows st.cache,
        st.execCount + 1⟩ : DbState)
    rw [h2]

/-- C6 witness: the two queries differ ("... FROM police_data" against the
already-qualified "... FROM police_data_seattle") but substitute to the same
final query; one execution happens and the second call is a cache hit. -/
theorem execute_sql_query_cache_dedup_witness :
    (execute_sql_query (fun _ => some [[("n", 1)]])
      "SELECT COUNT(*) FROM police_data" "Seattle Police Department"
      emptyDbState).1 = some [[("n", 1)]] ∧
    (execute_sql_query (fun _ => some [[("n", 1)]])
      "SELECT COUNT(*) FROM police_data" "Seattle Police Department"
      emptyDbState).2.execCount = emptyDbState.execCount + 1 ∧
    (execute_sql_query (fun _ => some [[("n", 1)]])
      "SELECT COUNT(*) FROM police_data_seattle" "Seattle Police Department"
      (execute_sql_query (fun _ => some [[("n", 1)]])
        "SELECT COUNT(*) FROM police_data" "Seattle Police Department"
        emptyDbState).2).1 = some [[("n", 1)]] ∧
    (execute_sql_query (fun _ => some [[("n", 1)]])
      "SELECT COUNT(*) FROM police_data_seattle" "Seattle Police Department"
      (execute_sql_query (fun _ => some [[("n", 1)]])
        "SELECT COUNT(*) FROM police_data" "Seattle Police Department"
        emptyDbState).2).2 =
      (execute_sql_query (fun _ => some [[("n", 1)]])
        "SELECT COUNT(*) FROM police_data" "Seattle Police Department"
        emptyDbState).2 :=
  execute_sql_query_cache_dedup (fun _ => some [[("n", 1)]])
    "SELECT COUNT(*) FROM police_data" "SELECT COUNT(*) FROM police_data_seattle"
    "Seattle Police Department" emptyDbState [[("n", 1)]]
    (by decide) (by decide) (by decide) (by decide)

/-! ## Query boundary (`PoliceDataLLMAgent.execute_query_and_explain`, src/llm_agent.py lines 323-370) -/

/-- The response record of `execute_query_and_explain`.  The latency fields and
the natural-language explanation (presentation only, computed after the checks
modelled here) are not modelled. -/
structure QueryOutcome where
  success : Bool
  error : Option String
  sql_query : Option String
  results : Option (List Row)
deriving DecidableEq

/-- `PoliceDataLLMAgent.execute_query_and_explain` (src/llm_agent.py lines
323-370): translate, execute, and collapse both an engine failure (`None`) and
an empty-but-valid result set into the same error response with the attempted
query attached (lines 341-347).  Python's `if not sql_query:` is the
empty-string test on the generated query. -/
def execute_query_and_explain (db : String → Option (List Row))
    (question department : String) (env : LLMEnv) (st : DbState) :
    QueryOutcome × DbState :=
  let q := generate_sql_query question department env
  if q = "" then
    (⟨false, some "Could not generate SQL query", none, none⟩, st)
  else
    match (execute_sql_query db q department st).1 with
    | none =>
      (⟨false, some "Query execution failed or returned no results", some q, none⟩,
        (execute_sql_query db q department st).2)
    | some rows =>
      if rows.isEmpty then
        (⟨false, some "Query execution failed or returned no results", some q, none⟩,
          (execute_sql_query db q department st).2)
      else
        (⟨true, none, some q, some rows⟩, (execute_sql_query db q department st).2)

/-- C10: a successfully executed query returning zero rows is reported at the
query boundary exactly like an execution failure — `success: false`, the fixed
error message, the attempted query attached — never as a success. -/
theorem empty_result_reported_as_failure (db : String → Option (List Row))
    (question department : String) (env : LLMEnv) (st : DbState)
    (hq : generate_sql_query question department env ≠ "")
    (h : (execute_sql_query db (generate_sql_query question department env)
        department st).1 = some [] ∨
      (execute_sql_query db (generate_sql_query question department env)
        department st).1 = none) :
    (execute_query_and_explain db question department env st).1 =
      ⟨false, some "Query execution failed or returned no results",
        some (generate_sql_query question department env), none⟩ := by
  unfold execute_query_and_explain
  rw [if_neg hq]
  rcases h with h | h
  · rw [h]
    rfl
  · rw [h]

/-- C10 witness: an engine returning an empty result set yields the failure
response with the attempted (fallback count) query attached. -/
theorem empty_result_reported_as_failure_witness :
    (execute_query_and_explain (fun _ => some []) "hm" "Seattle Police Department"
        LLMEnv.noApiKey emptyDbState).1 =
      ⟨false, some "Query execution failed or returned no results",
        some (generate_sql_query "hm" "Seattle Police Department" LLMEnv.noApiKey),
        none⟩ :=
  empty_result_reported_as_failure (fun _ => some []) "hm"
    "Seattle Police Department" LLMEnv.noApiKey emptyDbState
    (by decide) (Or.inl (by decide))
